import Mathlib

/-!
Verification of the job state synchronization and merge engine of
src/frontend/components/jobs/JobManager.tsx.

The component keeps a list of optimization jobs in React state.  We embed the
state transitions as pure functions over an explicit job list:

* fetchJobs      -> fetchJobsState / fetchJobsToastsError
* the realtime callback (INSERT / UPDATE branches) -> applyEvent
* handleDownloadResults -> handleDownloadResults (export document, with the
  template literal and its trailing .trim() modelled char-for-char)
* getStatusColor / getProgressValue -> same names

Opaque JSON payloads (parameters, JSON.stringify(results)) are modelled as
their serialized String renderings.  Fields that may be null/undefined at
runtime are modelled as Option.  JavaScript String.prototype.trim is modelled
on List Char via dropWhile of whitespace at both ends.
-/

namespace Qubot

/-- Status enum of a job, from the Job interface in JobManager.tsx. -/
inductive JobStatus where
  | PENDING
  | RUNNING
  | COMPLETED
  | FAILED
deriving DecidableEq, Repr

/-- A job record, from the Job interface in JobManager.tsx (created_at is read
by the component from the database row).  parameters and results hold the
serialized renderings of the opaque JSON payloads. -/
structure Job where
  id : String
  solver_id : String
  dataset_id : String
  status : JobStatus
  parameters : String
  results : Option String
  logs : Option (List String)
  error_message : Option String
  created_at : String
deriving DecidableEq, Repr

/-- A possibly-partial job record carried by an UPDATE event (payload.new).
A field set to none is absent from the event; some v is a present field.
The id is always present, since the UPDATE branch keys on payload.new.id. -/
structure JobPatch where
  id : String
  solver_id : Option String
  dataset_id : Option String
  status : Option JobStatus
  parameters : Option String
  results : Option (Option String)
  logs : Option (Option (List String))
  error_message : Option (Option String)
  created_at : Option String
deriving DecidableEq, Repr

/-- The JavaScript spread merge of the UPDATE branch:
job.id === payload.new.id ? \x7b ...job, ...payload.new \x7d : job.
Fields present in the event override; absent fields keep the prior value. -/
def mergeJob (job : Job) (p : JobPatch) : Job :=
  { id := p.id
    solver_id := p.solver_id.getD job.solver_id
    dataset_id := p.dataset_id.getD job.dataset_id
    status := p.status.getD job.status
    parameters := p.parameters.getD job.parameters
    results := p.results.getD job.results
    logs := p.logs.getD job.logs
    error_message := p.error_message.getD job.error_message
    created_at := p.created_at.getD job.created_at }

/-- A change event delivered by the postgres_changes subscription:
INSERT carries a complete row, UPDATE a possibly-partial row. -/
inductive ChangeEvent where
  | INSERT (record : Job)
  | UPDATE (record : JobPatch)
deriving DecidableEq, Repr

/-- The id of the record carried by an event. -/
def eventId : ChangeEvent → String
  | .INSERT r => r.id
  | .UPDATE r => r.id

/-- One step of the subscription callback in subscribeToJobUpdates:
UPDATE maps the matching record through the spread merge, INSERT prepends
payload.new to the list. -/
def applyEvent (prevJobs : List Job) : ChangeEvent → List Job
  | .UPDATE payload =>
      prevJobs.map (fun job => if job.id = payload.id then mergeJob job payload else job)
  | .INSERT payload => payload :: prevJobs

/-- Folding a sequence of change events, in arrival order, over a collection. -/
def applyEvents (init : List Job) (es : List ChangeEvent) : List Job :=
  es.foldl applyEvent init

/-- The records of a collection carrying a given id, in order. -/
def filterId (x : String) (l : List Job) : List Job :=
  l.filter (fun r => r.id = x)

/-- Outcome of the supabase select in fetchJobs: success carries data, which
may be null (the code falls back to []); any thrown error is the failure
case. -/
inductive FetchOutcome where
  | ok (data : Option (List Job))
  | err
deriving DecidableEq, Repr

/-- The jobs state after fetchJobs runs with the given prior state: on
success setJobs(data || []) replaces the state; on error setJobs is never
called so the prior state is kept. -/
def fetchJobsState (prior : List Job) : FetchOutcome → List Job
  | .ok data => data.getD []
  | .err => prior

/-- Whether fetchJobs surfaces the "Failed to fetch jobs" error toast. -/
def fetchJobsToastsError : FetchOutcome → Bool
  | .ok _ => false
  | .err => true

/-- getStatusColor from JobManager.tsx. -/
def getStatusColor : JobStatus → String
  | .COMPLETED => "bg-green-500"
  | .FAILED => "bg-red-500"
  | .RUNNING => "bg-blue-500"
  | _ => "bg-gray-500"

/-- getProgressValue from JobManager.tsx. -/
def getProgressValue : JobStatus → Nat
  | .COMPLETED => 100
  | .FAILED => 100
  | .RUNNING => 50
  | _ => 0

/-- Guard of the Download Results button at the render site:
job.status === COMPLETED && job.results. -/
def showsDownloadButton (j : Job) : Bool :=
  decide (j.status = JobStatus.COMPLETED) && j.results.isSome

/-- Whitespace test used to model JavaScript String.prototype.trim; the
characters at the template boundaries are only newline and space. -/
def isWS (c : Char) : Bool := c.isWhitespace

/-- Trailing-whitespace trim on a character list. -/
def rtrimC (l : List Char) : List Char :=
  (l.reverse.dropWhile isWS).reverse

/-- JavaScript String.prototype.trim modelled on a character list. -/
def trimC (l : List Char) : List Char :=
  rtrimC (l.dropWhile isWS)

/-- The logs section of the export document:
job.logs?.join(newline) || literal placeholder.  The JavaScript or-else
falls through both when logs is null/undefined and when the joined string
is empty (empty strings are falsy). -/
def logsBlock (j : Job) : String :=
  match j.logs with
  | none => "No logs available"
  | some ls =>
      if String.intercalate "\n" ls = "" then "No logs available"
      else String.intercalate "\n" ls

/-- The resultsText template literal of handleDownloadResults, including its
trailing .trim(); r is the serialized rendering of job.results. -/
def exportText (j : Job) (r : String) : List Char :=
  trimC ("\nOptimization Results for Job ".data ++ (j.id.data ++
    ("\n=====================================\n\nParameters:\n".data ++ (j.parameters.data ++
      ("\n\nResults:\n".data ++ (r.data ++
        ("\n\nLogs:\n".data ++ ((logsBlock j).data ++ "\n    ".data))))))))

/-- Failure of the export operation: the early return behind the
"No results available for this job" toast. -/
inductive ExportError where
  | notExportable
deriving DecidableEq, Repr

/-- The downloadable artifact produced by handleDownloadResults: its text
content and its download filename. -/
structure ExportDoc where
  text : List Char
  filename : String
deriving DecidableEq, Repr

/-- handleDownloadResults from JobManager.tsx: fails when job.results is
absent, otherwise produces the trimmed document and the download name
optimization_results_<id>.txt. -/
def handleDownloadResults (j : Job) : Except ExportError ExportDoc :=
  match j.results with
  | none => .error .notExportable
  | some r => .ok ⟨exportText j r, "optimization_results_" ++ j.id ++ ".txt"⟩

/-- The text of the export document, or [] when the export fails. -/
def exportTextD (j : Job) : List Char :=
  match handleDownloadResults j with
  | .ok d => d.text
  | .error _ => []

/-- Prefix test on character lists (pat is a prefix of the second list). -/
def segPre : List Char → List Char → Bool
  | [], _ => true
  | _ :: _, [] => false
  | a :: as, b :: bs => (a == b) && segPre as bs

/-- Contiguous-segment (substring) test on character lists. -/
def hasSeg (pat : List Char) : List Char → Bool
  | [] => pat.isEmpty
  | b :: bs => segPre pat (b :: bs) || hasSeg pat bs

/-! Helper lemmas about the trim model. -/

/-- Appending an all-whitespace suffix does not change the trailing trim. -/
lemma rtrimC_append_allWS (x w : List Char) (h : ∀ c ∈ w, isWS c = true) :
    rtrimC (x ++ w) = rtrimC x := by
  have hh : ∀ a ∈ w.reverse, isWS a := fun a ha => h a (List.mem_reverse.mp ha)
  unfold rtrimC
  rw [List.reverse_append, List.dropWhile_append_of_pos hh]

/-- Trailing trim walks past a leading non-whitespace character. -/
lemma rtrimC_cons_of_neg (c : Char) (d : List Char) (h : isWS c = false) :
    rtrimC (c :: d) = c :: rtrimC d := by
  unfold rtrimC
  rw [List.reverse_cons, List.dropWhile_append]
  by_cases he : (d.reverse.dropWhile isWS).isEmpty
  · rw [if_pos he]
    have hd : d.reverse.dropWhile isWS = [] := List.isEmpty_iff.mp he
    rw [hd]
    simp [List.dropWhile_cons, h]
  · rw [if_neg he]
    simp

/-- A list ending (after reversal) at a non-whitespace character has a
nonempty trailing-trimmed reversal. -/
lemma dropWhile_rev_cons_ne (c : Char) (d : List Char) (h : isWS c = false) :
    (c :: d).reverse.dropWhile isWS ≠ [] := by
  rw [List.reverse_cons, List.dropWhile_append]
  by_cases he : (d.reverse.dropWhile isWS).isEmpty
  · rw [if_pos he]
    simp [List.dropWhile_cons, h]
  · rw [if_neg he]
    simp

/-- Trailing trim of an append whose right part does not trim to nothing. -/
lemma rtrimC_append (a b : List Char) (h : b.reverse.dropWhile isWS ≠ []) :
    rtrimC (a ++ b) = a ++ rtrimC b := by
  unfold rtrimC
  rw [List.reverse_append, List.dropWhile_append,
    if_neg (fun hc => h (List.isEmpty_iff.mp hc))]
  rw [List.reverse_append, List.reverse_reverse]

/-- Trailing trim of an append whose right part starts with a
non-whitespace character. -/
lemma rtrimC_append_cons (a : List Char) (c : Char) (h : isWS c = false) (d : List Char) :
    rtrimC (a ++ (c :: d)) = a ++ (c :: rtrimC d) := by
  rw [rtrimC_append a (c :: d) (dropWhile_rev_cons_ne c d h), rtrimC_cons_of_neg c d h]

/-! Helper lemmas about the substring test. -/

/-- Correctness of the list prefix test. -/
lemma segPre_iff (pat : List Char) :
    ∀ l, segPre pat l = true ↔ ∃ t, l = pat ++ t := by
  induction pat with
  | nil =>
      intro l
      simp [segPre]
  | cons a as ih =>
      intro l
      cases l with
      | nil =>
          simp [segPre]
      | cons b bs =>
          simp only [segPre, Bool.and_eq_true, beq_iff_eq]
          constructor
          · rintro ⟨hab, hrest⟩
            obtain ⟨t, ht⟩ := (ih bs).mp hrest
            exact ⟨t, by simp [hab, ht]⟩
          · rintro ⟨t, ht⟩
            rw [List.cons_append] at ht
            injection ht with h1 h2
            exact ⟨h1.symm, (ih bs).mpr ⟨t, h2⟩⟩

/-- Correctness of the contiguous-segment test: it decides whether the
pattern occurs as a substring. -/
lemma hasSeg_iff (pat : List Char) :
    ∀ l, hasSeg pat l = true ↔ ∃ a b, l = a ++ (pat ++ b) := by
  intro l
  induction l with
  | nil =>
      simp only [hasSeg, List.isEmpty_iff]
      constructor
      · intro h
        exact ⟨[], [], by simp [h]⟩
      · rintro ⟨a, b, hab⟩
        rcases List.append_eq_nil.mp hab.symm with ⟨ha, hrest⟩
        exact (List.append_eq_nil.mp hrest).1
  | cons c t ih =>
      simp only [hasSeg, Bool.or_eq_true]
      constructor
      · rintro (hp | hh)
        · obtain ⟨tt, htt⟩ := (segPre_iff pat (c :: t)).mp hp
          exact ⟨[], tt, by simp [htt]⟩
        · obtain ⟨a, b, hab⟩ := ih.mp hh
          exact ⟨c :: a, b, by simp [hab]⟩
      · rintro ⟨a, b, hab⟩
        cases a with
        | nil =>
            exact Or.inl ((segPre_iff pat (c :: t)).mpr ⟨b, by simpa using hab⟩)
        | cons x xs =>
            rw [List.cons_append] at hab
            injection hab with h1 h2
            exact Or.inr (ih.mpr ⟨xs, b, h2⟩)

/-- Layout of the export document after trimming: the trim removes exactly
the leading newline of the template and the trailing whitespace behind the
logs section, so the document is the header, the parameters rendering, the
results rendering and the trailing-trimmed logs section, in order. -/
lemma exportText_layout (j : Job) (r : String) :
    exportText j r =
      "Optimization Results for Job ".data ++ (j.id.data ++
        ("\n=====================================\n\nParameters:\n".data ++ (j.parameters.data ++
          ("\n\nResults:\n".data ++ (r.data ++
            ("\n\nLogs".data ++ (':' :: rtrimC ('\n' :: (logsBlock j).data)))))))) := by
  simp only [exportText, trimC]
  rw [List.dropWhile_append, if_neg (by decide),
    show ("\nOptimization Results for Job ".data.dropWhile isWS)
      = "Optimization Results for Job ".data from by decide]
  have hassoc :
      "Optimization Results for Job ".data ++ (j.id.data ++
        ("\n=====================================\n\nParameters:\n".data ++ (j.parameters.data ++
          ("\n\nResults:\n".data ++ (r.data ++
            ("\n\nLogs:\n".data ++ ((logsBlock j).data ++ "\n    ".data)))))))
      = ("Optimization Results for Job ".data ++ (j.id.data ++
          ("\n=====================================\n\nParameters:\n".data ++ (j.parameters.data ++
            ("\n\nResults:\n".data ++ (r.data ++ "\n\nLogs".data)))))) ++
          (':' :: (('\n' :: (logsBlock j).data) ++ "\n    ".data)) := by
    rw [show ("\n\nLogs:\n".data : List Char) = "\n\nLogs".data ++ [':', '\n'] from by decide]
    simp [List.append_assoc]
  rw [hassoc, rtrimC_append_cons _ ':' (by decide) _,
    rtrimC_append_allWS _ _ (by decide)]
  simp [List.append_assoc]

/-! Helper lemmas about the merge engine. -/

/-- The spread merge keeps the event's id. -/
lemma mergeJob_id (job : Job) (p : JobPatch) : (mergeJob job p).id = p.id := rfl

/-- Restriction to an id commutes with the UPDATE map, since the map
preserves every record's id. -/
lemma filter_map_update (x : String) (p : JobPatch) (l : List Job) :
    (l.map (fun job => if job.id = p.id then mergeJob job p else job)).filter
        (fun r => r.id = x) =
      (l.filter (fun r => r.id = x)).map
        (fun job => if job.id = p.id then mergeJob job p else job) := by
  rw [List.filter_map]
  congr 1
  apply List.filter_congr
  intro a _
  show decide ((if a.id = p.id then mergeJob a p else a).id = x) = decide (a.id = x)
  by_cases hap : a.id = p.id
  · rw [if_pos hap, mergeJob_id, hap]
  · rw [if_neg hap]

/-- The UPDATE map is the identity on records whose id is a different id
than the event's. -/
lemma map_update_id (x : String) (p : JobPatch) (hpx : ¬ p.id = x) (l : List Job) :
    (l.filter (fun r => r.id = x)).map
        (fun job => if job.id = p.id then mergeJob job p else job) =
      l.filter (fun r => r.id = x) := by
  induction l with
  | nil => rfl
  | cons a t ih =>
      by_cases hax : a.id = x
      · have ha : ¬ a.id = p.id := by rw [hax]; exact fun h => hpx h.symm
        rw [List.filter_cons, if_pos (by simp [hax]), List.map_cons, if_neg ha, ih]
      · rw [List.filter_cons, if_neg (by simp [hax]), ih]

/-- Applying one event commutes with restriction to a single id: an event for
another id leaves the id's records untouched, and an event for this id acts
on the restricted list exactly as on the full list. -/
lemma filterId_applyEvent (x : String) (l : List Job) (e : ChangeEvent) :
    filterId x (applyEvent l e) =
      if eventId e = x then applyEvent (filterId x l) e else filterId x l := by
  cases e with
  | INSERT j =>
      by_cases hj : j.id = x <;>
        simp [applyEvent, eventId, filterId, List.filter_cons, hj]
  | UPDATE p =>
      simp only [applyEvent, eventId, filterId]
      rw [filter_map_update]
      by_cases hpx : p.id = x
      · rw [if_pos hpx]
      · rw [if_neg hpx, map_update_id x p hpx]

/-- Restriction to a single id of a full event-fold equals the fold of the
id's own event subsequence over the restricted collection. -/
lemma filterId_applyEvents (x : String) (l : List Job) (es : List ChangeEvent) :
    filterId x (applyEvents l es) =
      applyEvents (filterId x l) (es.filter (fun e => eventId e = x)) := by
  induction es generalizing l with
  | nil => rfl
  | cons e es ih =>
      show filterId x (applyEvents (applyEvent l e) es) = _
      rw [ih, filterId_applyEvent]
      by_cases h : eventId e = x
      · rw [if_pos h, List.filter_cons, if_pos (by simp [h])]
        rfl
      · rw [if_neg h, List.filter_cons, if_neg (by simp [h])]

/-- find? as the head of the filtered list. -/
lemma find?_eq_head?_filter (p : Job → Bool) (l : List Job) :
    l.find? p = (l.filter p).head? := by
  induction l with
  | nil => rfl
  | cons a t ih =>
      by_cases h : p a
      · rw [List.find?_cons_of_pos _ h, List.filter_cons, if_pos h]
        rfl
      · rw [List.find?_cons_of_neg _ h, List.filter_cons, if_neg h, ih]

/-- Applying an UPDATE event rewrites the first record with the event's id
through the spread merge (and sends absent ids to absent ids). -/
lemma find?_applyUpdate (l : List Job) (p : JobPatch) :
    (applyEvent l (.UPDATE p)).find? (fun r => r.id = p.id) =
      (l.find? (fun r => r.id = p.id)).map (fun R => mergeJob R p) := by
  induction l with
  | nil => rfl
  | cons a t ih =>
      by_cases ha : a.id = p.id
      · simp only [applyEvent, List.map_cons, if_pos ha]
        rw [List.find?_cons_of_pos _ (by simp [mergeJob_id]),
          List.find?_cons_of_pos _ (by simp [ha])]
        simp
      · simp only [applyEvent, List.map_cons, if_neg ha]
        rw [List.find?_cons_of_neg _ (by simp [ha]),
          List.find?_cons_of_neg _ (by simp [ha])]
        simpa [applyEvent] using ih

/-! Concrete records used to instantiate the theorems. -/

/-- A running job with id a. -/
def jobA : Job := ⟨"a", "s1", "d1", .RUNNING, "P1", none, none, none, "t1"⟩

/-- A second job record sharing id a. -/
def jobA2 : Job := ⟨"a", "s2", "d2", .PENDING, "P2", none, none, none, "t2"⟩

/-- A job with id b. -/
def jobB : Job := ⟨"b", "s3", "d3", .PENDING, "P3", none, none, none, "t3"⟩

/-- A status-and-results patch for id a. -/
def patchA : JobPatch := ⟨"a", none, none, some .COMPLETED, none, some (some "R1"), none, none, none⟩

/-- A status patch for an id matching no fixture record. -/
def patchZ : JobPatch := ⟨"z", none, none, some .FAILED, none, none, none, none, none⟩

/-- A completed job with results but no logs field. -/
def jobNoResults : Job := ⟨"cj2", "s5", "d5", .PENDING, "Pp", none, none, none, "t5"⟩

/-- A completed job with results and an empty logs array. -/
def jobEmptyLogs : Job := ⟨"cj3", "s6", "d6", .COMPLETED, "Pp", some "Rr", some [], none, "t6"⟩

/-- A completed job whose joined logs end in whitespace. -/
def jobWsLogs : Job := ⟨"cj4", "s7", "d7", .COMPLETED, "Pp", some "Rr", some ["a", " "], none, "t7"⟩

/-- A still-running job that already carries a results payload. -/
def jobRunResults : Job := ⟨"cj5", "s8", "d8", .RUNNING, "Pp", some "Rr", none, none, "t8"⟩

/-! Claim theorems. -/

/-- C1 counterexample: a record with id b is inserted by an INSERT event
while the collection is still empty; then a snapshot not containing b
arrives.  fetchJobs adopts the snapshot unconditionally, so the collection
equals the snapshot and the inserted record is gone, contradicting the
claim that it survives. -/
theorem snapshotOverwrites_counterexample :
    applyEvent [] (ChangeEvent.INSERT jobB) = [jobB] ∧
    fetchJobsState (applyEvent [] (ChangeEvent.INSERT jobB))
      (FetchOutcome.ok (some [jobA])) = [jobA] ∧
    (fetchJobsState (applyEvent [] (ChangeEvent.INSERT jobB))
      (FetchOutcome.ok (some [jobA]))).countP (fun r => r.id = "b") = 0 := by
  decide

/-- C1 amended: a successfully fetched snapshot replaces the collection
unconditionally (it does not check that the collection is empty), so any
record present before the snapshot and absent from it is lost. -/
theorem snapshotReplacesState (prior data : List Job) (j : Job)
    (_h1 : j ∈ prior) (h2 : j ∉ data) :
    fetchJobsState prior (FetchOutcome.ok (some data)) = data ∧
    j ∉ fetchJobsState prior (FetchOutcome.ok (some data)) :=
  ⟨rfl, h2⟩

/-- Witness for the amended C1 theorem at concrete records. -/
theorem snapshotReplacesState_witness :
    fetchJobsState [jobB] (FetchOutcome.ok (some [jobA])) = [jobA] ∧
    jobB ∉ fetchJobsState [jobB] (FetchOutcome.ok (some [jobA])) :=
  snapshotReplacesState [jobB] [jobA] jobB (by decide) (by decide)

/-- C2 counterexample: the collection holds one record with id a; an INSERT
event for another record with id a arrives; afterwards the collection holds
two records with id a, contradicting the claim that insert degrades to an
update and leaves exactly one record with that id. -/
theorem insertDuplicate_counterexample :
    (List.countP (fun r => r.id = "a") [jobA]) = 1 ∧
    (applyEvent [jobA] (ChangeEvent.INSERT jobA2)).countP (fun r => r.id = "a") = 2 := by
  decide

/-- C2 amended: an INSERT event always prepends the carried record, with no
duplicate check; when a record with the same id already exists the id
afterwards occurs at least twice (insert is not idempotent). -/
theorem insertExistingIdDuplicates (l : List Job) (j : Job)
    (h : 1 ≤ l.countP (fun r => r.id = j.id)) :
    applyEvent l (ChangeEvent.INSERT j) = j :: l ∧
    2 ≤ (applyEvent l (ChangeEvent.INSERT j)).countP (fun r => r.id = j.id) := by
  refine ⟨rfl, ?_⟩
  show 2 ≤ (j :: l).countP (fun r => r.id = j.id)
  have hcount : (j :: l).countP (fun r => r.id = j.id) =
      l.countP (fun r => r.id = j.id) + 1 := by
    simp [List.countP_cons]
  omega

/-- Witness for the amended C2 theorem at concrete records. -/
theorem insertExistingIdDuplicates_witness :
    applyEvent [jobA] (ChangeEvent.INSERT jobA2) = jobA2 :: [jobA] ∧
    2 ≤ (applyEvent [jobA] (ChangeEvent.INSERT jobA2)).countP
      (fun r => r.id = jobA2.id) :=
  insertExistingIdDuplicates [jobA] jobA2 (by decide)

/-- C5: an UPDATE event whose id matches no record leaves the collection
exactly unchanged: no error, no new record, no modification. -/
theorem updateUnknownIdNoop (l : List Job) (p : JobPatch)
    (h : ∀ r ∈ l, r.id ≠ p.id) :
    applyEvent l (ChangeEvent.UPDATE p) = l := by
  induction l with
  | nil => rfl
  | cons a t ih =>
      show (a :: t).map (fun job => if job.id = p.id then mergeJob job p else job) = a :: t
      rw [List.map_cons, if_neg (h a (List.mem_cons_self a t))]
      exact congrArg (a :: ·) (ih (fun r hr => h r (List.mem_cons_of_mem a hr)))

/-- Witness for the C5 theorem at concrete records. -/
theorem updateUnknownIdNoop_witness :
    applyEvent [jobA] (ChangeEvent.UPDATE patchZ) = [jobA] :=
  updateUnknownIdNoop [jobA] patchZ (by decide)

/-- C7: the status projector is a total mapping with PENDING to progress 0
and the gray color, RUNNING to 50 and blue, COMPLETED to 100 and green,
FAILED to 100 and red; COMPLETED and FAILED share progress 100 but carry
distinct colors. -/
theorem statusProjection :
    (getProgressValue .PENDING = 0 ∧ getStatusColor .PENDING = "bg-gray-500") ∧
    (getProgressValue .RUNNING = 50 ∧ getStatusColor .RUNNING = "bg-blue-500") ∧
    (getProgressValue .COMPLETED = 100 ∧ getStatusColor .COMPLETED = "bg-green-500") ∧
    (getProgressValue .FAILED = 100 ∧ getStatusColor .FAILED = "bg-red-500") ∧
    getStatusColor .COMPLETED ≠ getStatusColor .FAILED := by
  refine ⟨⟨rfl, rfl⟩, ⟨rfl, rfl⟩, ⟨rfl, rfl⟩, ⟨rfl, rfl⟩, ?_⟩
  decide

/-- C8: when the snapshot fetch fails, the error toast is surfaced and the
collection afterwards equals the collection before the fetch. -/
theorem fetchErrorKeepsState (prior : List Job) :
    fetchJobsState prior FetchOutcome.err = prior ∧
    fetchJobsToastsError FetchOutcome.err = true :=
  ⟨rfl, rfl⟩

/-- C10: presence of results is the only gate of the export operation: for
every job whose results field is present, export succeeds whatever the
status; the completion check lives only in the download-button guard at the
render site. -/
theorem exportOnlyGateIsResults (j : Job) (r : String) (h : j.results = some r) :
    (∃ d, handleDownloadResults j = Except.ok d) ∧
    (j.status ≠ JobStatus.COMPLETED → showsDownloadButton j = false) := by
  constructor
  · exact ⟨⟨exportText j r, "optimization_results_" ++ j.id ++ ".txt"⟩, by
      simp [handleDownloadResults, h]⟩
  · intro hs
    simp [showsDownloadButton, hs]

/-- Witness for the C10 theorem: a RUNNING job with results exports
successfully while the download button is hidden. -/
theorem exportOnlyGateIsResults_witness :
    (∃ d, handleDownloadResults jobRunResults = Except.ok d) ∧
    (jobRunResults.status ≠ JobStatus.COMPLETED →
      showsDownloadButton jobRunResults = false) :=
  exportOnlyGateIsResults jobRunResults "Rr" rfl

/-- C3: for any initial collection and any two event sequences that agree on
the subsequence of events carrying a given id, the final records carrying
that id — and in particular the first (rendered) record for that id — are
identical; reordering events across distinct ids never changes any id's
final merged record. -/
theorem perIdConvergence (init : List Job) (es1 es2 : List ChangeEvent) (x : String)
    (h : es1.filter (fun e => eventId e = x) = es2.filter (fun e => eventId e = x)) :
    filterId x (applyEvents init es1) = filterId x (applyEvents init es2) ∧
    (applyEvents init es1).find? (fun r => r.id = x) =
      (applyEvents init es2).find? (fun r => r.id = x) := by
  have h1 : filterId x (applyEvents init es1) = filterId x (applyEvents init es2) := by
    rw [filterId_applyEvents, filterId_applyEvents, h]
  refine ⟨h1, ?_⟩
  rw [find?_eq_head?_filter, find?_eq_head?_filter]
  exact congrArg List.head? h1

/-- Witness for the C3 theorem: two INSERT events for distinct ids applied
in either order leave the same records for id a. -/
theorem perIdConvergence_witness :
    filterId "a" (applyEvents [] [ChangeEvent.INSERT jobB, ChangeEvent.INSERT jobA]) =
      filterId "a" (applyEvents [] [ChangeEvent.INSERT jobA, ChangeEvent.INSERT jobB]) ∧
    (applyEvents [] [ChangeEvent.INSERT jobB, ChangeEvent.INSERT jobA]).find?
        (fun r => r.id = "a") =
      (applyEvents [] [ChangeEvent.INSERT jobA, ChangeEvent.INSERT jobB]).find?
        (fun r => r.id = "a") :=
  perIdConvergence [] [ChangeEvent.INSERT jobB, ChangeEvent.INSERT jobA]
    [ChangeEvent.INSERT jobA, ChangeEvent.INSERT jobB] "a" (by decide)

/-- C4: an UPDATE event for an id present in the collection rewrites that
id's record through the shallow spread merge: every field present in the
event replaces the prior value (logs wholesale, never appended), and every
field absent from the event keeps the prior record's value. -/
theorem updateShallowMerge (l : List Job) (p : JobPatch) (R : Job)
    (h : l.find? (fun r => r.id = p.id) = some R) :
    (applyEvent l (ChangeEvent.UPDATE p)).find? (fun r => r.id = p.id) =
      some (mergeJob R p) ∧
    (mergeJob R p).id = R.id ∧
    (∀ v, p.solver_id = some v → (mergeJob R p).solver_id = v) ∧
    (p.solver_id = none → (mergeJob R p).solver_id = R.solver_id) ∧
    (∀ v, p.dataset_id = some v → (mergeJob R p).dataset_id = v) ∧
    (p.dataset_id = none → (mergeJob R p).dataset_id = R.dataset_id) ∧
    (∀ v, p.status = some v → (mergeJob R p).status = v) ∧
    (p.status = none → (mergeJob R p).status = R.status) ∧
    (∀ v, p.parameters = some v → (mergeJob R p).parameters = v) ∧
    (p.parameters = none → (mergeJob R p).parameters = R.parameters) ∧
    (∀ v, p.results = some v → (mergeJob R p).results = v) ∧
    (p.results = none → (mergeJob R p).results = R.results) ∧
    (∀ v, p.logs = some v → (mergeJob R p).logs = v) ∧
    (p.logs = none → (mergeJob R p).logs = R.logs) ∧
    (∀ v, p.error_message = some v → (mergeJob R p).error_message = v) ∧
    (p.error_message = none → (mergeJob R p).error_message = R.error_message) ∧
    (∀ v, p.created_at = some v → (mergeJob R p).created_at = v) ∧
    (p.created_at = none → (mergeJob R p).created_at = R.created_at) := by
  have hid : R.id = p.id := by
    have hfound := List.find?_some h
    simpa using hfound
  refine ⟨by rw [find?_applyUpdate, h]; rfl, by rw [mergeJob_id, hid],
    ?_, ?_, ?_, ?_, ?_, ?_, ?_, ?_, ?_, ?_, ?_, ?_, ?_, ?_, ?_, ?_⟩ <;>
    (intros; simp [mergeJob, *])

/-- Witness for the C4 theorem: the fixture patch merged onto the record
with its id. -/
theorem updateShallowMerge_witness :
    (applyEvent [jobA] (ChangeEvent.UPDATE patchA)).find? (fun r => r.id = patchA.id) =
      some (mergeJob jobA patchA) :=
  (updateShallowMerge [jobA] patchA jobA (by decide)).1

/-- C6: export fails with the not-exportable error exactly when results are
absent, and when results are present while logs are absent or empty the
produced document contains the literal placeholder text. -/
theorem exportResultsGate (j : Job) :
    (j.results = none →
      handleDownloadResults j = Except.error ExportError.notExportable) ∧
    (∀ r, j.results = some r → (j.logs = none ∨ j.logs = some []) →
      ∃ d a b, handleDownloadResults j = Except.ok d ∧
        d.text = a ++ ("No logs available".data ++ b)) := by
  constructor
  · intro h
    simp [handleDownloadResults, h]
  · intro r hr hl
    have hnil : String.intercalate "\n" ([] : List String) = "" := rfl
    have hblock : logsBlock j = "No logs available" := by
      rcases hl with h | h
      · simp [logsBlock, h]
      · simp [logsBlock, h, hnil]
    refine ⟨⟨exportText j r, "optimization_results_" ++ j.id ++ ".txt"⟩,
      "Optimization Results for Job ".data ++ (j.id.data ++
        ("\n=====================================\n\nParameters:\n".data ++ (j.parameters.data ++
          ("\n\nResults:\n".data ++ (r.data ++ ("\n\nLogs".data ++ [':', '\n'])))))),
      [], ?_, ?_⟩
    · simp [handleDownloadResults, hr]
    · show exportText j r = _
      rw [exportText_layout, hblock,
        show rtrimC ('\n' :: ("No logs available").data) =
          '\n' :: ("No logs available").data from by decide]
      simp [List.append_assoc]

/-- Witness for the C6 theorem: a job without results fails, a job with
results and empty logs produces a document containing the placeholder. -/
theorem exportResultsGate_witness :
    handleDownloadResults jobNoResults = Except.error ExportError.notExportable ∧
    (∃ d a b, handleDownloadResults jobEmptyLogs = Except.ok d ∧
      d.text = a ++ ("No logs available".data ++ b)) :=
  ⟨(exportResultsGate jobNoResults).1 rfl,
   (exportResultsGate jobEmptyLogs).2 "Rr" rfl (Or.inr rfl)⟩

/-- C9 counterexample: the fixture job has results present and logs whose
newline-join is the string a-newline-space; the final trim eats the
trailing whitespace, so the produced document does not contain the joined
logs as a substring, contradicting the claimed layout. -/
theorem exportLayout_counterexample :
    jobWsLogs.results = some "Rr" ∧
    handleDownloadResults jobWsLogs =
      Except.ok ⟨exportTextD jobWsLogs, "optimization_results_cj4.txt"⟩ ∧
    ¬ ∃ a b, exportTextD jobWsLogs =
      a ++ ((String.intercalate "\n" ["a", " "]).data ++ b) := by
  refine ⟨rfl, rfl, ?_⟩
  rw [← hasSeg_iff]
  decide

/-- C9 amended: for every job with results present, export deterministically
produces the document containing, in order, the header naming the job id,
the parameters rendering, the results rendering, and the logs section
(logs joined by newlines, or the placeholder when absent or empty) with the
document's trailing whitespace trimmed; it is delivered under the filename
optimization_results_<id>.txt. -/
theorem exportDocumentLayout (j : Job) (r : String) (h : j.results = some r) :
    handleDownloadResults j = Except.ok
      ⟨"Optimization Results for Job ".data ++ (j.id.data ++
        ("\n=====================================\n\nParameters:\n".data ++ (j.parameters.data ++
          ("\n\nResults:\n".data ++ (r.data ++
            ("\n\nLogs".data ++ (':' :: rtrimC ('\n' :: (logsBlock j).data)))))))),
        "optimization_results_" ++ j.id ++ ".txt"⟩ := by
  simp only [handleDownloadResults, h]
  rw [exportText_layout]

/-- Witness for the amended C9 theorem at a concrete job. -/
theorem exportDocumentLayout_witness :
    handleDownloadResults jobWsLogs = Except.ok
      ⟨"Optimization Results for Job ".data ++ (jobWsLogs.id.data ++
        ("\n=====================================\n\nParameters:\n".data ++ (jobWsLogs.parameters.data ++
          ("\n\nResults:\n".data ++ ("Rr".data ++
            ("\n\nLogs".data ++ (':' :: rtrimC ('\n' :: (logsBlock jobWsLogs).data)))))))),
        "optimization_results_" ++ jobWsLogs.id ++ ".txt"⟩ :=
  exportDocumentLayout jobWsLogs "Rr" rfl

end Qubot
